import Mathlib

/-!
Verification of the adaptive simulation scheduler of the wasm-game-of-life
frontend (src/www/index.ts, revision also present as src/unnamed/part_000).

The embedding models, over exact rational arithmetic:

* the rolling sample window (`fps.frames.unshift(x); fps.frames.splice(100)`
  and the identical `tickTimes` handling) as `record`;
* the fps statistics object's mutable state as `FpsState` / `fpsRender`;
* the rate-slider mapping (`rate < 25 ? 0.2 + (rate/25)*0.8
  : 1 + ((rate-25)/75)^2 * 999`) as `rateLow` / `rateHigh` / `rateMap`;
* one iteration of the `renderLoop` body (the per-frame handler awoken by
  `requestAnimationFrame`) as `onFrame`, with the inner catch-up
  `while (delta > interval)` loop as `catchup`.

Wall-clock readings (`performance.now()`) are nondeterministic inputs: each
frame supplies the `requestAnimationFrame` timestamp, the reading taken inside
`fps.render`, the readings taken after each `universe.tick()`, and the reading
stored into `lastFrameEnd`, bundled in `FrameClock`.  The external automaton
(`universe.tick()`) and the renderer (`drawCells()`) are opaque collaborators;
the model counts their invocations in the `ticks` and `draws` fields.

The loop precondition `0 < interval` (in the program `interval = 1000 / rate`
with `rate` in `[0.2, 1000]`, and `interval` starts at `1`) is carried as a
proof field of the state; it is what makes the catch-up loop terminate.
-/

/-- One `record` call of the rolling statistics window: insert the sample at
the front, then truncate to the most recent 100 entries.  This is the source's
`arr.unshift(sample); arr.splice(100)` pattern, used for both `fps.frames`
and `tickTimes`. -/
def record {α : Type} (sample : α) (w : List α) : List α :=
  (sample :: w).take 100

/-- A whole sequence of `record` calls, oldest sample first. -/
def recordAll {α : Type} (xs : List α) (w : List α) : List α :=
  xs.foldl (fun w s => record s w) w

/-- Mutable state of the `fps` statistics object. -/
structure FpsState where
  frames : List ℚ
  lastFrameTimeStamp : ℚ

/-- `fps.render()` restricted to its state effect: compute
`frameTime = now - this.lastFrameTimeStamp`, remember `now`, and record
`frameTime` into the rolling window.  (The DOM text it builds from the window
is display-only output and not modelled.) -/
def fpsRender (now : ℚ) (f : FpsState) : FpsState :=
  { frames := record (now - f.lastFrameTimeStamp) f.frames
    lastFrameTimeStamp := now }

/-- The `raw < 25` branch of the rate-slider mapping:
`rate = 0.2 + (rate / 25) * 0.8`. -/
def rateLow (raw : ℚ) : ℚ :=
  0.2 + (raw / 25) * 0.8

/-- The `raw >= 25` branch of the rate-slider mapping:
`rate = 1 + Math.pow((rate - 25) / 75, 2) * 999`. -/
def rateHigh (raw : ℚ) : ℚ :=
  1 + ((raw - 25) / 75) ^ 2 * 999

/-- The full two-piece mapping of the rate slider's raw value (in `[0,100]`)
to a target step rate in Hz, as in the `rateSlider` input handler. -/
def rateMap (raw : ℚ) : ℚ :=
  if raw < 25 then rateLow raw else rateHigh raw

/-- The caller's conversion of a target rate to a target interval:
`interval = 1000 / rate`. -/
def targetInterval (raw : ℚ) : ℚ :=
  1000 / rateMap raw

/-- The wall-clock readings observed during one `renderLoop` iteration:
`fstart` is the timestamp delivered by `requestAnimationFrame`
(`thisFrameStart`), `renderNow` the `performance.now()` reading taken inside
`fps.render`, `tickNow n` the reading taken right after the `n`-th
`universe.tick()` of this frame, and `endNow` the reading stored into
`lastFrameEnd` after `drawCells()`. -/
structure FrameClock where
  fstart : ℚ
  renderNow : ℚ
  tickNow : Nat → ℚ
  endNow : ℚ

/-- The mutable state of the `renderLoop` scheduler.  `delta` is the
accumulated time debt (`accumulatedMs`), `ticks` counts `universe.tick()`
invocations and `draws` counts `drawCells()` invocations.  `interval_pos`
records the program invariant `interval = 1000 / rate > 0` (initially
`interval = 1`), which the termination of the catch-up loop rests on. -/
structure LoopState where
  paused : Bool
  interval : ℚ
  interval_pos : 0 < interval
  delta : ℚ
  lastFrameStart : ℚ
  lastFrameEnd : ℚ
  fps : FpsState
  tickTimes : List ℚ
  ticks : Nat
  draws : Nat

/-- The catch-up loop

`while (delta > interval) { universe.tick(); delta -= interval;
  let now = performance.now(); tickTimes.unshift(now); tickTimes.splice(100);
  if (now - thisFrameStart > maxFrameTime) break; }`

returning the final `delta`, the final `tickTimes` window, and the total
number of `universe.tick()` calls performed (the counter enters as `n`). -/
def catchup (interval : ℚ) (hpos : 0 < interval) (maxFrameTime : ℚ)
    (thisFrameStart : ℚ) (tickNow : Nat → ℚ) (delta : ℚ)
    (tickTimes : List ℚ) (n : Nat) : ℚ × List ℚ × Nat :=
  if h : interval < delta then
    if maxFrameTime < tickNow n - thisFrameStart then
      (delta - interval, record (tickNow n) tickTimes, n + 1)
    else
      catchup interval hpos maxFrameTime thisFrameStart tickNow
        (delta - interval) (record (tickNow n) tickTimes) (n + 1)
  else
    (delta, tickTimes, n)
termination_by Nat.ceil (delta / interval)
decreasing_by
  have hne : interval ≠ 0 := ne_of_gt hpos
  have h1 : (delta - interval) / interval = delta / interval - 1 := by
    rw [sub_div, div_self hne]
  have h2 : (1 : ℚ) < delta / interval := (one_lt_div hpos).mpr h
  have h3 : 0 < Nat.ceil (delta / interval) :=
    Nat.ceil_pos.mpr (lt_trans one_pos h2)
  have h4 : Nat.ceil ((delta - interval) / interval) ≤
      Nat.ceil (delta / interval) - 1 := by
    rw [h1]
    apply Nat.ceil_le.mpr
    have h5 : delta / interval ≤ (Nat.ceil (delta / interval) : ℚ) :=
      Nat.le_ceil _
    push_cast [Nat.cast_sub (by exact_mod_cast h3)]
    linarith
  exact lt_of_le_of_lt h4 (Nat.sub_lt h3 one_pos)

/-- The skip test of the per-frame handler:
`if (paused || timeDiff < interval - delta) { continue; }`. -/
def skips (c : FrameClock) (s : LoopState) : Prop :=
  s.paused = true ∨ c.fstart - s.lastFrameStart < s.interval - s.delta

instance (c : FrameClock) (s : LoopState) : Decidable (skips c s) := by
  unfold skips; infer_instance

/-- One iteration of the `renderLoop` body, processing the frame delivered at
`c.fstart`.  On a skipped frame (`paused` or not enough elapsed time) the
source runs `continue;`, touching nothing.  Otherwise it accumulates
`timeDiff`, advances `lastFrameStart`, computes the frame budget
`maxFrameTime = Math.min(100, idleTime * 4)`, records the frame statistics,
runs the catch-up loop, clamps `delta = Math.min(interval, delta)`, calls
`drawCells()` and stores `lastFrameEnd`. -/
def onFrame (c : FrameClock) (s : LoopState) : LoopState :=
  if skips c s then s
  else
    let delta1 := s.delta + (c.fstart - s.lastFrameStart)
    let idleTime := c.fstart - s.lastFrameEnd
    let maxFrameTime := min 100 (idleTime * 4)
    let r := catchup s.interval s.interval_pos maxFrameTime c.fstart c.tickNow
      delta1 s.tickTimes 0
    { s with
      delta := min s.interval r.1
      lastFrameStart := c.fstart
      lastFrameEnd := c.endNow
      fps := fpsRender c.renderNow s.fps
      tickTimes := r.2.1
      ticks := s.ticks + r.2.2
      draws := s.draws + 1 }

/-- The catch-up call made by a processed frame, with the actual arguments of
the call site in `onFrame`. -/
def catchupResult (c : FrameClock) (s : LoopState) : ℚ × List ℚ × Nat :=
  catchup s.interval s.interval_pos (min 100 ((c.fstart - s.lastFrameEnd) * 4))
    c.fstart c.tickNow (s.delta + (c.fstart - s.lastFrameStart)) s.tickTimes 0

/-- A sequence of frames processed in order by the scheduler. -/
def runTrace (cs : List FrameClock) (s : LoopState) : LoopState :=
  cs.foldl (fun st c => onFrame c st) s

/-! ### Concrete scenario inputs -/

/-- The scheduler state at loop start (clock origin at 0) with the target rate
set to 1 Hz, i.e. `interval = 1000`: unpaused, no debt, empty windows. -/
def initState : LoopState :=
  { paused := false
    interval := 1000
    interval_pos := by norm_num
    delta := 0
    lastFrameStart := 0
    lastFrameEnd := 0
    fps := ⟨[], 0⟩
    tickTimes := []
    ticks := 0
    draws := 0 }

/-- `initState` with the play/pause toggle set to paused. -/
def pausedState : LoopState :=
  { initState with paused := true }

/-- A frame arriving after a 5000 ms stall, all `performance.now()` readings
during the frame also 5000 (instantaneous ticks). -/
def stallClock : FrameClock :=
  ⟨5000, 5000, fun _ => 5000, 5000⟩

/-- A frame arriving only 5 ms after the last processed frame start. -/
def skipClock : FrameClock :=
  ⟨5, 5, fun _ => 5, 5⟩

/-- A frame arriving exactly one target interval (1000 ms) after the last
processed frame start. -/
def tieClock : FrameClock :=
  ⟨1000, 1000, fun _ => 1000, 1000⟩

/-- 150 distinct samples, for exercising the rolling window. -/
def sample150 : List ℚ :=
  (List.range 150).map (fun k : ℕ => (k : ℚ))

/-- The scheduler state at loop start with the target rate set to 30 Hz,
i.e. `interval = 1000 / 30 = 100/3`. -/
def c7start : LoopState :=
  { paused := false
    interval := 100 / 3
    interval_pos := by norm_num
    delta := 0
    lastFrameStart := 0
    lastFrameEnd := 0
    fps := ⟨[], 0⟩
    tickTimes := []
    ticks := 0
    draws := 0 }

/-- The `k`-th display refresh of a 16.7 ms cadence (1-indexed), all
`performance.now()` readings during the frame equal to its timestamp. -/
def c7clock (k : Nat) : FrameClock :=
  ⟨167 / 10 * k, 167 / 10 * k, fun _ => 167 / 10 * k, 167 / 10 * k⟩

/-- The first `n` frames of the 16.7 ms cadence. -/
def c7trace (n : Nat) : List FrameClock :=
  (List.range n).map (fun j => c7clock (j + 1))

/-- The scheduler state reached after `2 * m` frames of the 16.7 ms cadence at
30 Hz target: debt `m/15` (the 1/15 ms drift per processed frame), last
processed frame start `33.4 * m`, `m` ticks performed. -/
def c7inv (m : Nat) (s : LoopState) : Prop :=
  s.paused = false ∧
  s.interval = 100 / 3 ∧
  s.delta = (m : ℚ) / 15 ∧
  s.lastFrameStart = 167 / 5 * m ∧
  s.lastFrameEnd ≤ 167 / 5 * m ∧
  s.ticks = m

/-! ### Basic equations and helper lemmas -/

theorem catchup_done {interval : ℚ} {hpos : 0 < interval}
    {maxFrameTime thisFrameStart : ℚ} {tickNow : Nat → ℚ} {delta : ℚ}
    {tickTimes : List ℚ} {n : Nat} (h : ¬ interval < delta) :
    catchup interval hpos maxFrameTime thisFrameStart tickNow delta tickTimes n
      = (delta, tickTimes, n) := by
  unfold catchup
  rw [dif_neg h]

theorem catchup_brk {interval : ℚ} {hpos : 0 < interval}
    {maxFrameTime thisFrameStart : ℚ} {tickNow : Nat → ℚ} {delta : ℚ}
    {tickTimes : List ℚ} {n : Nat} (h : interval < delta)
    (hb : maxFrameTime < tickNow n - thisFrameStart) :
    catchup interval hpos maxFrameTime thisFrameStart tickNow delta tickTimes n
      = (delta - interval, record (tickNow n) tickTimes, n + 1) := by
  unfold catchup
  rw [dif_pos h, if_pos hb]

theorem catchup_go {interval : ℚ} {hpos : 0 < interval}
    {maxFrameTime thisFrameStart : ℚ} {tickNow : Nat → ℚ} {delta : ℚ}
    {tickTimes : List ℚ} {n : Nat} (h : interval < delta)
    (hb : ¬ maxFrameTime < tickNow n - thisFrameStart) :
    catchup interval hpos maxFrameTime thisFrameStart tickNow delta tickTimes n
      = catchup interval hpos maxFrameTime thisFrameStart tickNow
          (delta - interval) (record (tickNow n) tickTimes) (n + 1) := by
  conv_lhs => unfold catchup
  rw [dif_pos h, if_neg hb]

theorem catchup_conserve (interval : ℚ) (hpos : 0 < interval)
    (maxFrameTime thisFrameStart : ℚ) (tickNow : Nat → ℚ) :
    ∀ (N : Nat) (delta : ℚ) (tickTimes : List ℚ) (n : Nat),
      Nat.ceil (delta / interval) ≤ N →
      n ≤ (catchup interval hpos maxFrameTime thisFrameStart tickNow delta
            tickTimes n).2.2 ∧
      (catchup interval hpos maxFrameTime thisFrameStart tickNow delta
            tickTimes n).1 +
        ((catchup interval hpos maxFrameTime thisFrameStart tickNow delta
            tickTimes n).2.2 : ℚ) * interval = delta + (n : ℚ) * interval ∧
      (0 ≤ delta →
        0 ≤ (catchup interval hpos maxFrameTime thisFrameStart tickNow delta
            tickTimes n).1) := by
  intro N
  induction N with
  | zero =>
    intro delta tickTimes n hN
    have hle : ¬ interval < delta := by
      intro hlt
      have h2 : (1 : ℚ) < delta / interval := (one_lt_div hpos).mpr hlt
      have h3 : 0 < Nat.ceil (delta / interval) :=
        Nat.ceil_pos.mpr (lt_trans one_pos h2)
      omega
    rw [catchup_done hle]
    exact ⟨le_refl n, by ring, fun h => h⟩
  | succ N ih =>
    intro delta tickTimes n hN
    by_cases hlt : interval < delta
    · have hd0 : 0 ≤ delta - interval := le_of_lt (sub_pos.mpr hlt)
      by_cases hbrk : maxFrameTime < tickNow n - thisFrameStart
      · rw [catchup_brk hlt hbrk]
        refine ⟨Nat.le_succ n, by push_cast; ring, fun _ => hd0⟩
      · rw [catchup_go hlt hbrk]
        have hceil : Nat.ceil ((delta - interval) / interval) ≤ N := by
          have hne : interval ≠ 0 := ne_of_gt hpos
          have e1 : (delta - interval) / interval = delta / interval - 1 := by
            rw [sub_div, div_self hne]
          have h2 : (1 : ℚ) < delta / interval := (one_lt_div hpos).mpr hlt
          have h3 : 0 < Nat.ceil (delta / interval) :=
            Nat.ceil_pos.mpr (lt_trans one_pos h2)
          have h4 : Nat.ceil ((delta - interval) / interval) ≤
              Nat.ceil (delta / interval) - 1 := by
            rw [e1]
            apply Nat.ceil_le.mpr
            have h5 : delta / interval ≤ (Nat.ceil (delta / interval) : ℚ) :=
              Nat.le_ceil _
            push_cast [Nat.cast_sub (by exact_mod_cast h3)]
            linarith
          omega
        obtain ⟨h1, h2, h3⟩ :=
          ih (delta - interval) (record (tickNow n) tickTimes) (n + 1) hceil
        refine ⟨le_trans (Nat.le_succ n) h1, ?_, fun _ => h3 hd0⟩
        push_cast at h2 ⊢
        linarith
    · rw [catchup_done hlt]
      exact ⟨le_refl n, by ring, fun h => h⟩

theorem onFrame_skip {c : FrameClock} {s : LoopState} (h : skips c s) :
    onFrame c s = s := by
  unfold onFrame
  rw [if_pos h]

theorem onFrame_not_skip {c : FrameClock} {s : LoopState} (h : ¬ skips c s) :
    onFrame c s =
      { s with
        delta := min s.interval (catchupResult c s).1
        lastFrameStart := c.fstart
        lastFrameEnd := c.endNow
        fps := fpsRender c.renderNow s.fps
        tickTimes := (catchupResult c s).2.1
        ticks := s.ticks + (catchupResult c s).2.2
        draws := s.draws + 1 } := by
  unfold onFrame catchupResult
  rw [if_neg h]

theorem not_skips_facts {c : FrameClock} {s : LoopState} (h : ¬ skips c s) :
    s.paused = false ∧ s.interval ≤ s.delta + (c.fstart - s.lastFrameStart) := by
  unfold skips at h
  push_neg at h
  obtain ⟨h1, h2⟩ := h
  refine ⟨by simpa using h1, by linarith⟩

theorem runTrace_nil (s : LoopState) : runTrace [] s = s := rfl

theorem runTrace_cons (c : FrameClock) (cs : List FrameClock) (s : LoopState) :
    runTrace (c :: cs) s = runTrace cs (onFrame c s) := rfl

theorem runTrace_append (p q : List FrameClock) (s : LoopState) :
    runTrace (p ++ q) s = runTrace q (runTrace p s) :=
  List.foldl_append _ _ _ _

theorem onFrame_interval (c : FrameClock) (s : LoopState) :
    (onFrame c s).interval = s.interval := by
  unfold onFrame
  split <;> rfl

theorem onFrame_paused (c : FrameClock) (s : LoopState) :
    (onFrame c s).paused = s.paused := by
  unfold onFrame
  split <;> rfl

/-! ### Derived step lemmas -/

theorem onFrame_processed_delta_le {c : FrameClock} {s : LoopState}
    (h : ¬ skips c s) : (onFrame c s).delta ≤ s.interval := by
  rw [onFrame_not_skip h]
  exact min_le_left _ _

theorem onFrame_delta_nonneg {c : FrameClock} {s : LoopState}
    (h0 : 0 ≤ s.delta) : 0 ≤ (onFrame c s).delta := by
  by_cases hs : skips c s
  · rw [onFrame_skip hs]
    exact h0
  · rw [onFrame_not_skip hs]
    show 0 ≤ min s.interval (catchupResult c s).1
    obtain ⟨hpf, hile⟩ := not_skips_facts hs
    have hd1 : 0 ≤ s.delta + (c.fstart - s.lastFrameStart) :=
      le_trans (le_of_lt s.interval_pos) hile
    have hc := catchup_conserve s.interval s.interval_pos
      (min 100 ((c.fstart - s.lastFrameEnd) * 4)) c.fstart c.tickNow
      (Nat.ceil ((s.delta + (c.fstart - s.lastFrameStart)) / s.interval))
      (s.delta + (c.fstart - s.lastFrameStart)) s.tickTimes 0 (le_refl _)
    exact le_min (le_of_lt s.interval_pos) (hc.2.2 hd1)

theorem runTrace_delta_nonneg (cs : List FrameClock) :
    ∀ s : LoopState, 0 ≤ s.delta → 0 ≤ (runTrace cs s).delta := by
  induction cs with
  | nil => intro s h; exact h
  | cons c cs ih =>
    intro s h
    rw [runTrace_cons]
    exact ih _ (onFrame_delta_nonneg h)

/-! ### Rolling window (C6) -/

theorem record_length_le {α : Type} (x : α) (w : List α) :
    (record x w).length ≤ 100 := by
  simp [record, List.length_take]

theorem recordAll_eq {α : Type} :
    ∀ (xs w : List α), w.length ≤ 100 →
      recordAll xs w = (xs.reverse ++ w).take 100 := by
  intro xs
  induction xs with
  | nil =>
    intro w hw
    unfold recordAll
    simp only [List.foldl_nil, List.reverse_nil, List.nil_append]
    exact (List.take_of_length_le hw).symm
  | cons x xs ih =>
    intro w hw
    have h1 : recordAll (x :: xs) w = recordAll xs (record x w) := rfl
    rw [h1, ih (record x w) (record_length_le x w)]
    rw [List.reverse_cons, List.append_assoc]
    show ((xs.reverse ++ (x :: w).take 100).take 100 : List α)
      = (xs.reverse ++ ([x] ++ w)).take 100
    rw [List.take_append_eq_append_take, List.take_append_eq_append_take,
      List.take_take]
    have hmin : (100 - xs.reverse.length) ⊓ 100 = 100 - xs.reverse.length :=
      min_eq_left (Nat.sub_le _ _)
    rw [hmin]
    rfl

/-- Claim C6: the stored sample count of a rolling window never exceeds 100,
and after recording 150 samples (into an initially empty window) exactly the
100 most recent values are retained, most-recent-first in arrival order — the
reversed input truncated to 100, the 50 oldest dropped from the back. -/
theorem rolling_window_bound (xs : List ℚ) (h : xs.length = 150) :
    (∀ ys w : List ℚ, w.length ≤ 100 → (recordAll ys w).length ≤ 100) ∧
    (recordAll xs []).length = 100 ∧
    recordAll xs [] = xs.reverse.take 100 := by
  refine ⟨fun ys w hw => ?_, ?_, ?_⟩
  · rw [recordAll_eq ys w hw]
    simp [List.length_take]
  · rw [recordAll_eq xs [] (by simp)]
    simp [List.length_take, h]
  · rw [recordAll_eq xs [] (by simp)]
    simp

theorem sample150_length : sample150.length = 150 := by
  unfold sample150
  rw [List.length_map, List.length_range]

theorem rolling_window_bound_witness :
    sample150.length = 150 ∧ recordAll sample150 [] = sample150.reverse.take 100 :=
  ⟨sample150_length, (rolling_window_bound sample150 sample150_length).2.2⟩

/-! ### Rate mapping (C8, C9) -/

/-- Claim C8: both branch formulas agree at the boundary `raw = 25`, where
each yields exactly 1 Hz (so the two-piece map is continuous there), and the
endpoints map to 0.2 Hz and 1000 Hz. -/
theorem rate_mapping_continuity :
    rateLow 25 = 1 ∧ rateHigh 25 = 1 ∧ rateMap 25 = 1 ∧
    rateMap 0 = 0.2 ∧ rateMap 100 = 1000 := by
  norm_num [rateMap, rateLow, rateHigh]

/-- Claim C9: the slider mapping is monotone (in fact strictly) on `[0, 100]`,
including across the `raw = 25` branch boundary. -/
theorem rate_mapping_monotone (a b : ℚ) (_h0 : 0 ≤ a) (hab : a < b)
    (_h100 : b ≤ 100) : rateMap a ≤ rateMap b := by
  unfold rateMap rateLow rateHigh
  by_cases ha : a < 25 <;> by_cases hb : b < 25
  · rw [if_pos ha, if_pos hb]
    linarith
  · rw [if_pos ha, if_neg hb]
    push_neg at hb
    have h1 : 0.2 + (a / 25) * 0.8 ≤ 1 := by linarith
    have h2 : (1 : ℚ) ≤ 1 + ((b - 25) / 75) ^ 2 * 999 := by
      nlinarith [sq_nonneg ((b - 25) / 75)]
    linarith
  · exfalso
    push_neg at ha
    linarith
  · rw [if_neg ha, if_neg hb]
    push_neg at ha hb
    have h1 : (0 : ℚ) ≤ (a - 25) / 75 := by linarith
    have h2 : (a - 25) / 75 ≤ (b - 25) / 75 := by linarith
    have h3 : ((a - 25) / 75) ^ 2 ≤ ((b - 25) / 75) ^ 2 :=
      pow_le_pow_left₀ h1 h2 2
    linarith

theorem rate_mapping_monotone_witness :
    (0 : ℚ) ≤ 10 ∧ (10 : ℚ) < 50 ∧ (50 : ℚ) ≤ 100 ∧ rateMap 10 ≤ rateMap 50 :=
  ⟨by norm_num, by norm_num, by norm_num,
    rate_mapping_monotone 10 50 (by norm_num) (by norm_num) (by norm_num)⟩

/-! ### Pause behaviour (C4) and skipped frames (C2) -/

/-- Claim C4: while `paused` is true every frame is skipped, so no sequence of
frames — whatever the elapsed times — ever invokes `universe.tick()`. -/
theorem pause_never_steps (s : LoopState) (cs : List FrameClock)
    (h : s.paused = true) : (runTrace cs s).ticks = s.ticks := by
  have key : runTrace cs s = s := by
    induction cs with
    | nil => rfl
    | cons c cs ih =>
      rw [runTrace_cons, onFrame_skip (Or.inl h)]
      exact ih
  rw [key]

theorem pause_never_steps_witness :
    pausedState.paused = true ∧
    (runTrace [stallClock, skipClock] pausedState).ticks = pausedState.ticks :=
  ⟨rfl, pause_never_steps pausedState [stallClock, skipClock] rfl⟩

/-- Claim C2 counterexample: at a concrete skipped frame (5 ms elapsed against
a 1000 ms target interval, unpaused) the handler runs `continue;` and never
reaches `drawCells()`: the draw counter is not incremented, so the claim's
"a render of the unchanged snapshot is still requested" is false. -/
theorem skip_requests_no_render_counterexample :
    ¬ (onFrame skipClock initState).draws = initState.draws + 1 := by
  have h : skips skipClock initState := by
    right
    show skipClock.fstart - initState.lastFrameStart
      < initState.interval - initState.delta
    norm_num [skipClock, initState]
  rw [onFrame_skip h]
  simp

/-- Claim C2 (amended): a skipped `onFrame` call — `paused` true or
`timeDiff < interval - delta` — leaves the entire scheduler state unchanged:
no accumulation, no timestamp update, no statistics sample, no tick, and also
no render request (the draw counter is untouched; the previously drawn canvas
simply persists). -/
theorem skip_frame_no_effect (c : FrameClock) (s : LoopState) (h : skips c s) :
    onFrame c s = s ∧ (onFrame c s).draws = s.draws :=
  ⟨onFrame_skip h, by rw [onFrame_skip h]⟩

theorem skip_frame_no_effect_witness :
    skips skipClock initState ∧ onFrame skipClock initState = initState := by
  have h : skips skipClock initState := by
    right
    show skipClock.fstart - initState.lastFrameStart
      < initState.interval - initState.delta
    norm_num [skipClock, initState]
  exact ⟨h, (skip_frame_no_effect skipClock initState h).1⟩

/-! ### Exact-tie frames (C10) -/

/-- Claim C10: when the skip test fails with exact equality
(`timeDiff = interval - delta`) the frame is processed — statistics recorded,
`lastFrameStart` advanced, a render requested — but zero ticks occur, because
afterwards `delta = interval` exactly and the catch-up loop requires
`delta > interval` strictly. -/
theorem tie_processed_zero_steps (c : FrameClock) (s : LoopState)
    (hp : s.paused = false)
    (heq : c.fstart - s.lastFrameStart = s.interval - s.delta) :
    (onFrame c s).ticks = s.ticks ∧
    (onFrame c s).delta = s.interval ∧
    (onFrame c s).lastFrameStart = c.fstart ∧
    (onFrame c s).fps = fpsRender c.renderNow s.fps ∧
    (onFrame c s).tickTimes = s.tickTimes ∧
    (onFrame c s).draws = s.draws + 1 := by
  have hns : ¬ skips c s := by
    rintro (h1 | h2)
    · rw [hp] at h1
      exact Bool.false_ne_true h1
    · rw [heq] at h2
      exact lt_irrefl _ h2
  have hd1 : s.delta + (c.fstart - s.lastFrameStart) = s.interval := by
    linarith [heq]
  have hcr : catchupResult c s = (s.interval, s.tickTimes, 0) := by
    unfold catchupResult
    rw [hd1]
    exact catchup_done (lt_irrefl s.interval)
  rw [onFrame_not_skip hns, hcr]
  refine ⟨rfl, min_self s.interval, rfl, rfl, rfl, rfl⟩

theorem tie_processed_zero_steps_witness :
    initState.paused = false ∧
    tieClock.fstart - initState.lastFrameStart
      = initState.interval - initState.delta ∧
    (onFrame tieClock initState).ticks = initState.ticks :=
  ⟨rfl, by norm_num [tieClock, initState],
    (tie_processed_zero_steps tieClock initState rfl
      (by norm_num [tieClock, initState])).1⟩

/-! ### Bounded catch-up (C5) -/

/-- Claim C5: in any single processed `onFrame` call the catch-up loop
performs finitely many ticks — at most `ceil(debt / interval)` — and the total
debt converted into ticks, `k * interval`, never exceeds the accumulated debt
at the start of the loop (`delta + timeDiff`, the value prior to the final
clamp). -/
theorem bounded_catchup (c : FrameClock) (s : LoopState) (h : ¬ skips c s) :
    ∃ k : Nat,
      (onFrame c s).ticks = s.ticks + k ∧
      (k : ℚ) * s.interval ≤ s.delta + (c.fstart - s.lastFrameStart) ∧
      k ≤ Nat.ceil ((s.delta + (c.fstart - s.lastFrameStart)) / s.interval) := by
  obtain ⟨hpf, hile⟩ := not_skips_facts h
  have hd1pos : 0 ≤ s.delta + (c.fstart - s.lastFrameStart) :=
    le_trans (le_of_lt s.interval_pos) hile
  have hcr : catchupResult c s
      = catchup s.interval s.interval_pos
          (min 100 ((c.fstart - s.lastFrameEnd) * 4)) c.fstart c.tickNow
          (s.delta + (c.fstart - s.lastFrameStart)) s.tickTimes 0 := rfl
  obtain ⟨h1, h2, h3⟩ := catchup_conserve s.interval s.interval_pos
    (min 100 ((c.fstart - s.lastFrameEnd) * 4)) c.fstart c.tickNow
    (Nat.ceil ((s.delta + (c.fstart - s.lastFrameStart)) / s.interval))
    (s.delta + (c.fstart - s.lastFrameStart)) s.tickTimes 0 (le_refl _)
  rw [← hcr] at h2 h3
  have hk : ((catchupResult c s).2.2 : ℚ) * s.interval
      ≤ s.delta + (c.fstart - s.lastFrameStart) := by
    have := h3 hd1pos
    push_cast at h2
    linarith
  refine ⟨(catchupResult c s).2.2, ?_, hk, ?_⟩
  · rw [onFrame_not_skip h]
  · have hq : ((catchupResult c s).2.2 : ℚ)
        ≤ (s.delta + (c.fstart - s.lastFrameStart)) / s.interval :=
      (le_div_iff₀ s.interval_pos).mpr hk
    calc (catchupResult c s).2.2
        = Nat.ceil (((catchupResult c s).2.2 : ℚ)) := (Nat.ceil_natCast _).symm
      _ ≤ Nat.ceil ((s.delta + (c.fstart - s.lastFrameStart)) / s.interval) :=
        Nat.ceil_mono hq

theorem bounded_catchup_witness :
    ¬ skips stallClock initState ∧
    (∃ k : Nat,
      (onFrame stallClock initState).ticks = initState.ticks + k ∧
      (k : ℚ) * initState.interval
        ≤ initState.delta + (stallClock.fstart - initState.lastFrameStart) ∧
      k ≤ Nat.ceil ((initState.delta
            + (stallClock.fstart - initState.lastFrameStart))
              / initState.interval)) := by
  have hns : ¬ skips stallClock initState := by
    rintro (h1 | h2)
    · simp [initState] at h1
    · norm_num [stallClock, initState] at h2
  exact ⟨hns, bounded_catchup stallClock initState hns⟩

/-! ### Accumulator invariant (C3) -/

/-- Claim C3: for any sequence of frames with non-decreasing timestamps,
starting from a state with non-negative debt, `delta` (the `accumulatedMs`
debt) is non-negative after every call, and after every call that performs a
catch-up pass (a processed, non-skipped call) `delta` is at most the target
interval, thanks to the final clamp. -/
theorem accumulator_invariant (s0 : LoopState) (cs : List FrameClock)
    (h0 : 0 ≤ s0.delta)
    (_hmono : List.Chain (fun a b => a ≤ b) s0.lastFrameStart
      (cs.map FrameClock.fstart)) :
    (∀ n : Nat, 0 ≤ (runTrace (cs.take n) s0).delta) ∧
    (∀ (p : List FrameClock) (c : FrameClock), (p ++ [c]) <+: cs →
      ¬ skips c (runTrace p s0) →
      (runTrace (p ++ [c]) s0).delta ≤ (runTrace (p ++ [c]) s0).interval) := by
  constructor
  · intro n
    exact runTrace_delta_nonneg (cs.take n) s0 h0
  · intro p c _hpre hns
    rw [runTrace_append]
    have hone : runTrace [c] (runTrace p s0) = onFrame c (runTrace p s0) := rfl
    rw [hone, onFrame_interval]
    exact onFrame_processed_delta_le hns

theorem accumulator_invariant_witness :
    0 ≤ initState.delta ∧
    List.Chain (fun a b => a ≤ b) initState.lastFrameStart
      ([stallClock].map FrameClock.fstart) ∧
    0 ≤ (runTrace ([stallClock].take 1) initState).delta := by
  have h0 : 0 ≤ initState.delta := le_refl 0
  have hch : List.Chain (fun a b => a ≤ b) initState.lastFrameStart
      ([stallClock].map FrameClock.fstart) := by
    simp [List.chain_cons, initState, stallClock]
  exact ⟨h0, hch, (accumulator_invariant initState [stallClock] h0 hch).1 1⟩

/-! ### The 5000 ms stall scenario (C1) -/

theorem stall_not_skips : ¬ skips stallClock initState := by
  rintro (h1 | h2)
  · simp [initState] at h1
  · norm_num [stallClock, initState] at h2

theorem stall_catchup_ticks : (catchupResult stallClock initState).2.2 = 4 := by
  unfold catchupResult
  rw [catchup_go (by norm_num [stallClock, initState])
        (by norm_num [stallClock, initState]),
      catchup_go (by norm_num [stallClock, initState])
        (by norm_num [stallClock, initState]),
      catchup_go (by norm_num [stallClock, initState])
        (by norm_num [stallClock, initState]),
      catchup_go (by norm_num [stallClock, initState])
        (by norm_num [stallClock, initState]),
      catchup_done (by norm_num [stallClock, initState])]

theorem stall_catchup_delta : (catchupResult stallClock initState).1 = 1000 := by
  unfold catchupResult
  rw [catchup_go (by norm_num [stallClock, initState])
        (by norm_num [stallClock, initState]),
      catchup_go (by norm_num [stallClock, initState])
        (by norm_num [stallClock, initState]),
      catchup_go (by norm_num [stallClock, initState])
        (by norm_num [stallClock, initState]),
      catchup_go (by norm_num [stallClock, initState])
        (by norm_num [stallClock, initState]),
      catchup_done (by norm_num [stallClock, initState])]
  norm_num [stallClock, initState]

/-- Claim C1 counterexample: a single frame arriving after a 5000 ms stall at
target rate 1 Hz (`interval = 1000`), with ticks completing instantaneously
(well within the `min(100, idle*4)` budget), performs four `universe.tick()`
calls, not one: the catch-up loop converts the whole debt into steps before
the clamp ever runs. -/
theorem stall_one_step_counterexample :
    (onFrame stallClock initState).ticks ≠ 1 := by
  rw [onFrame_not_skip stall_not_skips]
  show initState.ticks + (catchupResult stallClock initState).2.2 ≠ 1
  rw [stall_catchup_ticks]
  norm_num [initState]

/-- Claim C1 (amended): a frame resuming after a 5000 ms stall at target rate
1 Hz, with each tick completing within the frame budget, performs exactly four
automaton steps — one per whole interval of debt beyond the one the clamp may
retain — and leaves `accumulatedMs` clamped to exactly one interval
(`min(1000, 1000) = 1000`). -/
theorem stall_four_steps :
    (onFrame stallClock initState).ticks = 4 ∧
    (onFrame stallClock initState).delta = 1000 := by
  rw [onFrame_not_skip stall_not_skips]
  constructor
  · show initState.ticks + (catchupResult stallClock initState).2.2 = 4
    rw [stall_catchup_ticks]
    norm_num [initState]
  · show min initState.interval (catchupResult stallClock initState).1 = 1000
    rw [stall_catchup_delta]
    norm_num [initState]

/-! ### The 30 Hz / 16.7 ms cadence scenario (C7) -/

theorem c7clock_fstart (k : Nat) : (c7clock k).fstart = 167 / 10 * k := rfl

theorem c7clock_tickNow (k n : Nat) : (c7clock k).tickNow n = 167 / 10 * k := rfl

theorem c7trace_succ (n : Nat) :
    c7trace (n + 1) = c7trace n ++ [c7clock (n + 1)] := by
  unfold c7trace
  rw [List.range_succ, List.map_append]
  rfl

theorem c7step_skip (m : Nat) (s : LoopState) (hm : m ≤ 249)
    (hinv : c7inv m s) : onFrame (c7clock (2 * m + 1)) s = s := by
  obtain ⟨hp, hi, hd, hls, hle, ht⟩ := hinv
  apply onFrame_skip
  right
  rw [c7clock_fstart, hi, hd, hls]
  have hmQ : (m : ℚ) ≤ 249 := by exact_mod_cast hm
  push_cast
  linarith

theorem c7step_tick (m : Nat) (s : LoopState) (hm : m ≤ 499)
    (hinv : c7inv m s) : c7inv (m + 1) (onFrame (c7clock (2 * m + 2)) s) := by
  obtain ⟨hp, hi, hd, hls, hle, ht⟩ := hinv
  have hmQ : (m : ℚ) ≤ 499 := by exact_mod_cast hm
  have hm0 : (0 : ℚ) ≤ (m : ℚ) := Nat.cast_nonneg m
  have hfs : (c7clock (2 * m + 2)).fstart = 167 / 5 * ((m : ℚ) + 1) := by
    rw [c7clock_fstart]
    push_cast
    ring
  have hns : ¬ skips (c7clock (2 * m + 2)) s := by
    rintro (h1 | h2)
    · rw [hp] at h1
      exact Bool.false_ne_true h1
    · rw [hfs, hi, hd, hls] at h2
      linarith
  have hc1 : s.interval
      < s.delta + ((c7clock (2 * m + 2)).fstart - s.lastFrameStart) := by
    rw [hfs, hi, hd, hls]
    linarith
  have hb1 : ¬ min 100 (((c7clock (2 * m + 2)).fstart - s.lastFrameEnd) * 4)
      < (c7clock (2 * m + 2)).tickNow 0 - (c7clock (2 * m + 2)).fstart := by
    push_neg
    rw [c7clock_tickNow, c7clock_fstart]
    rw [sub_self]
    apply le_min
    · norm_num
    · have h1 : (167 : ℚ) / 5 * (m : ℚ) ≤ 167 / 10 * ((2 * m + 2 : ℕ) : ℚ) := by
        push_cast
        linarith
      linarith [hle, h1]
  have hc2 : ¬ s.interval
      < s.delta + ((c7clock (2 * m + 2)).fstart - s.lastFrameStart)
          - s.interval := by
    push_neg
    rw [hfs, hi, hd, hls]
    linarith
  have hcr : catchupResult (c7clock (2 * m + 2)) s
      = (s.delta + ((c7clock (2 * m + 2)).fstart - s.lastFrameStart)
            - s.interval,
          record ((c7clock (2 * m + 2)).tickNow 0) s.tickTimes, 0 + 1) := by
    unfold catchupResult
    rw [catchup_go hc1 hb1, catchup_done hc2]
  rw [onFrame_not_skip hns]
  refine ⟨hp, hi, ?_, ?_, ?_, ?_⟩
  · show min s.interval (catchupResult (c7clock (2 * m + 2)) s).1
      = ((m + 1 : ℕ) : ℚ) / 15
    rw [hcr]
    show min s.interval
        (s.delta + ((c7clock (2 * m + 2)).fstart - s.lastFrameStart)
          - s.interval) = ((m + 1 : ℕ) : ℚ) / 15
    rw [hfs, hi, hd, hls]
    rw [min_eq_right (by linarith)]
    push_cast
    ring
  · show (c7clock (2 * m + 2)).fstart = 167 / 5 * ((m + 1 : ℕ) : ℚ)
    rw [hfs]
    push_cast
    ring
  · show (c7clock (2 * m + 2)).endNow ≤ 167 / 5 * ((m + 1 : ℕ) : ℚ)
    show 167 / 10 * ((2 * m + 2 : ℕ) : ℚ) ≤ 167 / 5 * ((m + 1 : ℕ) : ℚ)
    push_cast
    linarith
  · show s.ticks + (catchupResult (c7clock (2 * m + 2)) s).2.2 = m + 1
    rw [hcr, ht]

theorem c7trace_inv : ∀ m : Nat, m ≤ 250 →
    c7inv m (runTrace (c7trace (2 * m)) c7start) := by
  intro m
  induction m with
  | zero =>
    intro _
    have h0 : runTrace (c7trace (2 * 0)) c7start = c7start := rfl
    rw [h0]
    exact ⟨rfl, rfl, by norm_num [c7start], by norm_num [c7start],
      by norm_num [c7start], rfl⟩
  | succ m ih =>
    intro hm
    have hm249 : m ≤ 249 := by omega
    have hinv := ih (by omega)
    have h1 : 2 * (m + 1) = (2 * m + 1) + 1 := by ring
    rw [h1, c7trace_succ (2 * m + 1), c7trace_succ (2 * m), runTrace_append,
      runTrace_append]
    have e2 : ∀ (c : FrameClock) (st : LoopState), runTrace [c] st = onFrame c st :=
      fun c st => rfl
    rw [e2, e2, c7step_skip m _ hm249 hinv]
    have h2 : 2 * m + 1 + 1 = 2 * m + 2 := by omega
    rw [h2]
    exact c7step_tick m _ (by omega) hinv

theorem c7frame501 (s : LoopState) (hinv : c7inv 250 s) :
    (onFrame (c7clock 501) s).ticks = 251 := by
  obtain ⟨hp, hi, hd, hls, hle, ht⟩ := hinv
  have hns : ¬ skips (c7clock 501) s := by
    rintro (h1 | h2)
    · rw [hp] at h1
      exact Bool.false_ne_true h1
    · rw [c7clock_fstart, hi, hd, hls] at h2
      norm_num at h2
  have hc1 : s.interval < s.delta + ((c7clock 501).fstart - s.lastFrameStart) := by
    rw [c7clock_fstart, hi, hd, hls]
    norm_num
  have hb1 : ¬ min 100 (((c7clock 501).fstart - s.lastFrameEnd) * 4)
      < (c7clock 501).tickNow 0 - (c7clock 501).fstart := by
    push_neg
    rw [c7clock_tickNow, c7clock_fstart, sub_self]
    apply le_min
    · norm_num
    · have h1 : s.lastFrameEnd ≤ 167 / 10 * ((501 : ℕ) : ℚ) := by
        refine le_trans hle ?_
        norm_num
      linarith
  have hc2 : ¬ s.interval
      < s.delta + ((c7clock 501).fstart - s.lastFrameStart) - s.interval := by
    push_neg
    rw [c7clock_fstart, hi, hd, hls]
    norm_num
  have hcr : catchupResult (c7clock 501) s
      = (s.delta + ((c7clock 501).fstart - s.lastFrameStart) - s.interval,
          record ((c7clock 501).tickNow 0) s.tickTimes, 0 + 1) := by
    unfold catchupResult
    rw [catchup_go hc1 hb1, catchup_done hc2]
  rw [onFrame_not_skip hns]
  show s.ticks + (catchupResult (c7clock 501) s).2.2 = 251
  rw [hcr, ht]
  rfl

/-- Claim C7 counterexample: with interval `100/3` and frames at exactly
16.7 ms spacing, the alternating pattern breaks at call 501: after 500 calls
250 ticks have run, and call 501 — an in-between (odd) call, which the claim
says triggers no step — performs a 251st tick, because the 1/15 ms drift per
processed cycle has accumulated to a full frame of slack. -/
theorem alternation_counterexample :
    (runTrace (c7trace 500) c7start).ticks = 250 ∧
    (runTrace (c7trace 501) c7start).ticks = 251 ∧
    (runTrace (c7trace 501) c7start).ticks
      ≠ (runTrace (c7trace 500) c7start).ticks := by
  have hinv : c7inv 250 (runTrace (c7trace 500) c7start) := by
    have h := c7trace_inv 250 (by norm_num)
    have e : (2 * 250 : ℕ) = 500 := by norm_num
    rw [e] at h
    exact h
  have h500 : (runTrace (c7trace 500) c7start).ticks = 250 := hinv.2.2.2.2.2
  have hsucc : c7trace 501 = c7trace 500 ++ [c7clock 501] := by
    have h := c7trace_succ 500
    have e501 : (500 + 1 : ℕ) = 501 := by norm_num
    rw [e501] at h
    exact h
  have h501 : (runTrace (c7trace 501) c7start).ticks = 251 := by
    rw [hsucc, runTrace_append]
    rw [runTrace_cons, runTrace_nil]
    exact c7frame501 _ hinv
  refine ⟨h500, h501, ?_⟩
  rw [h500, h501]
  norm_num

/-- Claim C7 (amended): with target rate 30 Hz (`interval = 100/3`) and
unpaused frames at exact 16.7 ms spacing from `accumulatedMs = 0`, the calls
alternate for the first 500 calls: after `2m` calls (`m ≤ 250`) exactly `m`
ticks have run, and the odd call `2m+1` (`m ≤ 249`) adds none — each
even-numbered call triggers exactly one step and the odd calls in between
none.  (Beyond call 500 the 1/15 ms per-cycle drift breaks the pattern.) -/
theorem alternation_first_500 (m : Nat) :
    (m ≤ 250 → (runTrace (c7trace (2 * m)) c7start).ticks = m) ∧
    (m ≤ 249 → (runTrace (c7trace (2 * m + 1)) c7start).ticks = m) := by
  constructor
  · intro hm
    exact (c7trace_inv m hm).2.2.2.2.2
  · intro hm
    have hinv := c7trace_inv m (by omega)
    rw [c7trace_succ (2 * m), runTrace_append]
    have e2 : runTrace [c7clock (2 * m + 1)] (runTrace (c7trace (2 * m)) c7start)
        = onFrame (c7clock (2 * m + 1)) (runTrace (c7trace (2 * m)) c7start) :=
      rfl
    rw [e2, c7step_skip m _ hm hinv]
    exact hinv.2.2.2.2.2

theorem alternation_first_500_witness :
    250 ≤ 250 ∧ (runTrace (c7trace (2 * 250)) c7start).ticks = 250 :=
  ⟨le_refl 250, (alternation_first_500 250).1 (le_refl 250)⟩
